import Mathlib

/-
Verification of the state-tree component (chain/state, package state):
a trie-backed actor index with a write-back actor cache, an ID-resolution
cache, and flush/snapshot/revert transactional operations.

Modelling conventions:
- Machine pointers (the Go values of type star-Actor) are modelled by an
  explicit heap (pointer -> Actor record); the SetActor fast path compares
  pointers, exactly as the Go code compares pointer identity.
- The in-memory hamt node is an association list from addresses to actor
  records; the byte encoding of an address as a trie key is injective, so
  we key the node by the address itself.
- Store I/O failures are modelled by failure oracles carried in the Store
  value (per-key set failure, per-key find failure, per-cid get failure,
  flush failure, put failure). The store is content addressed: putting a
  node returns a cid computed from the node content.
- The bounded LRU id cache (capacity 1024) is modelled as an unbounded
  association list; eviction and recency are not modelled, and no claim
  below depends on them.
- Go errors built with xerrors.Errorf("...: %w", e) are modelled by a wrap
  constructor keeping the wrapped error; xerrors.Is walks the wrap chain.
-/

namespace LotusState

/-- Address forms: the undefined sentinel, the canonical numeric-ID
protocol, and non-ID (key-hash style) protocols collapsed to one tag. -/
inductive Address where
  | undef : Address
  | id (n : Nat) : Address
  | key (n : Nat) : Address
deriving DecidableEq

/-- Protocol test from LookupID line 89: addr.Protocol() == address.ID.
The undefined address has no ID protocol. -/
def Address.isID : Address → Bool
  | .id _ => true
  | _ => false

/-- Modelled from the spec: actors.InitAddress, the well-known canonical
(numeric-ID) address of the init actor; the defining package is not in
the excerpt. Only its ID-protocol form matters. -/
def InitAddress : Address := .id 0

/-- Content identifiers; cid.Undef is the zero value of the snapshot
field before any snapshot. -/
inductive Cid where
  | undef : Cid
  | mk (n : Nat) : Cid
deriving DecidableEq

/-- types.Actor: code cid, head cid, nonce, balance (BigInt, kept as a
natural number; its arithmetic is irrelevant here). -/
structure Actor where
  code : Cid
  head : Cid
  nonce : Nat
  balance : Nat
deriving DecidableEq

/-- Errors: hamt.ErrNotFound, types.ErrActorNotFound, wrapped errors from
xerrors.Errorf with a percent-w verb, and all other error values. -/
inductive Err where
  | hamtNotFound : Err
  | actorNotFound : Err
  | wrap (msg : String) (e : Err) : Err
  | other (msg : String) : Err
deriving DecidableEq

instance {ε α : Type} [DecidableEq ε] [DecidableEq α] : DecidableEq (Except ε α)
  | .ok a, .ok b =>
    if h : a = b then isTrue (by rw [h])
    else isFalse (by intro hh; cases hh; exact h rfl)
  | .ok _, .error _ => isFalse (by intro h; cases h)
  | .error _, .ok _ => isFalse (by intro h; cases h)
  | .error a, .error b =>
    if h : a = b then isTrue (by rw [h])
    else isFalse (by intro hh; cases hh; exact h rfl)

/-- xerrors.Is: compare against the target at every unwrap level. -/
def errIs : Err → Err → Bool
  | .wrap m e, t => decide (Err.wrap m e = t) || errIs e t
  | e, t => decide (e = t)

abbrev Ptr := Nat
abbrev Node := List (Address × Actor)
abbrev Heap := List (Ptr × Actor)

/-- First-match lookup in an association list. -/
def assocLookup {α β : Type} [DecidableEq α] : List (α × β) → α → Option β
  | [], _ => none
  | (k, v) :: t, a => if k = a then some v else assocLookup t a

/-- Replace-or-append insertion, matching Go map assignment. -/
def assocInsert {α β : Type} [DecidableEq α] : List (α × β) → α → β → List (α × β)
  | [], a, b => [(a, b)]
  | (k, v) :: t, a, b => if k = a then (a, b) :: t else (k, v) :: assocInsert t a b

def encAddress : Address → Nat
  | .undef => 0
  | .id n => 2 * n + 1
  | .key n => 2 * n + 2

def encCid : Cid → Nat
  | .undef => 0
  | .mk n => n + 1

def encActor (a : Actor) : Nat :=
  Nat.pair (encCid a.code) (Nat.pair (encCid a.head) (Nat.pair a.nonce a.balance))

def encNode (nd : Node) : Nat :=
  nd.foldr (fun kv acc => Nat.pair (Nat.pair (encAddress kv.1) (encActor kv.2)) acc + 1) 0

/-- Modelled from the spec: the init actor state (not in the excerpt), a
resolution table from addresses to canonical numeric IDs plus the next-ID
allocator; the table, a hamt in the store in the original, is kept inline. -/
structure InitActorState where
  addressMap : List (Address × Nat)
  nextID : Nat
deriving DecidableEq

def encIas (i : InitActorState) : Nat :=
  Nat.pair (i.addressMap.foldr
    (fun kv acc => Nat.pair (Nat.pair (encAddress kv.1) kv.2) acc + 1) 0) i.nextID

/-- Content-derived cid of a trie node (Store.Put on the root). -/
def hashNode (nd : Node) : Cid := .mk (2 * encNode nd)

/-- Content-derived cid of an init actor state (Store.Put on the table). -/
def hashIas (i : InitActorState) : Cid := .mk (2 * encIas i + 1)

/-- The CborIpldStore together with the failure oracles of the I/O layer. -/
structure Store where
  blocks : List (Cid × Node)
  iasBlocks : List (Cid × InitActorState)
  setFails : Address → Bool
  findFails : Address → Bool
  getFails : Cid → Bool
  flushFails : Bool
  putFails : Bool

/-- hamt Node.Set on the in-memory root; stores the record value under the
trie key of the address, or fails per the set oracle. -/
def rootSet (s : Store) (nd : Node) (a : Address) (act : Actor) : Except Err Node :=
  if s.setFails a then .error (.other "hamt set failed") else .ok (assocInsert nd a act)

/-- hamt Node.Find on the in-memory root; a missing key is
hamt.ErrNotFound, other I/O failures come from the find oracle. -/
def rootFind (s : Store) (nd : Node) (a : Address) : Except Err Actor :=
  if s.findFails a then .error (.other "hamt find io error")
  else
    match assocLookup nd a with
    | some act => .ok act
    | none => .error .hamtNotFound

/-- Store.Get of an init-actor-state block by cid. -/
def storeGetIas (s : Store) (c : Cid) : Except Err InitActorState :=
  if s.getFails c then .error (.other "store get failed")
  else
    match assocLookup s.iasBlocks c with
    | some i => .ok i
    | none => .error (.other "block not found")

/-- Store.Put of an init actor state: content addressed and idempotent. -/
def storePutIas (s : Store) (i : InitActorState) : Except Err (Cid × Store) :=
  if s.putFails then .error (.other "store put failed")
  else .ok (hashIas i, { s with iasBlocks := assocInsert s.iasBlocks (hashIas i) i })

/-- Store.Put of a trie node: content addressed and idempotent. -/
def storePutNode (s : Store) (nd : Node) : Except Err (Cid × Store) :=
  if s.putFails then .error (.other "store put failed")
  else .ok (hashNode nd, { s with blocks := assocInsert s.blocks (hashNode nd) nd })

/-- hamt.LoadNode: fetch a trie node by cid; the undefined cid and absent
blocks fail. -/
def loadNode (s : Store) (c : Cid) : Except Err Node :=
  match c with
  | .undef => .error (.other "cannot load undefined cid")
  | c =>
    match assocLookup s.blocks c with
    | some nd => .ok nd
    | none => .error .hamtNotFound

/-- The StateTree fields, plus the pointer heap and allocator modelling
the Go heap of Actor records. -/
structure StateTree where
  root : Node
  store : Store
  heap : Heap
  nextPtr : Ptr
  actorcache : List (Address × Ptr)
  snapshot : Cid
  idCache : List (Address × Address)

/-- Dereference an actor pointer; Go pointers obtained from the cache are
always valid, a dangling pointer reads as the zero record. -/
def heapGetD (h : Heap) (p : Ptr) : Actor :=
  (assocLookup h p).getD ⟨.undef, .undef, 0, 0⟩

/-- NewStateTree: empty root, empty caches, undefined snapshot. The lru
constructor failure path is statically unreachable and not modelled. -/
def NewStateTree (s : Store) : StateTree :=
  { root := [], store := s, heap := [], nextPtr := 0, actorcache := [],
    snapshot := .undef, idCache := [] }

/-- Modelled from the spec: InitActorState.Lookup resolves an address via
the table; a never-registered address fails with the hamt not-found error
of the table lookup. -/
def InitActorState.lookup (i : InitActorState) (a : Address) : Except Err Address :=
  match assocLookup i.addressMap a with
  | some n => .ok (.id n)
  | none => .error .hamtNotFound

/-- Modelled from the spec: InitActorState.AddActor allocates the next
canonical ID for an address, failing if it is already registered. -/
def InitActorState.addActor (i : InitActorState) (a : Address) :
    Except Err (Address × InitActorState) :=
  match assocLookup i.addressMap a with
  | some _ => .error (.other "address already registered")
  | none => .ok (.id i.nextID,
      { addressMap := assocInsert i.addressMap a i.nextID, nextID := i.nextID + 1 })

/-- GetActor lines 126 to 142: the part after address resolution — cache
hit, else trie find with not-found translation, else read-through cache
population at a fresh pointer. -/
def getActorCore (st : StateTree) (iaddr : Address) : Except Err Ptr × StateTree :=
  match assocLookup st.actorcache iaddr with
  | some p => (.ok p, st)
  | none =>
    match rootFind st.store st.root iaddr with
    | .error e =>
      if e = .hamtNotFound then (.error .actorNotFound, st)
      else (.error (.wrap "hamt find failed" e), st)
    | .ok act =>
      (.ok st.nextPtr,
        { st with
          heap := assocInsert st.heap st.nextPtr act,
          actorcache := assocInsert st.actorcache iaddr st.nextPtr,
          nextPtr := st.nextPtr + 1 })

/-- GetActor parametrised by the resolver it calls, so that the mutual
recursion between GetActor and LookupID can be closed off by the bounded
resolver below. Lines 112 to 143 of the source. -/
def getActorWith (resolve : StateTree → Address → Except Err Address × StateTree)
    (st : StateTree) (addr : Address) : Except Err Ptr × StateTree :=
  if addr = .undef then (.error (.other "GetActor called on undefined address"), st)
  else
    match resolve st addr with
    | (.error e, st1) =>
      if errIs e .hamtNotFound then
        (.error (.wrap "resolution lookup failed" .actorNotFound), st1)
      else (.error (.wrap "address resolution" e), st1)
    | (.ok iaddr, st1) => getActorCore st1 iaddr

/-- LookupID, lines 84 to 110, with a recursion bound. The only recursive
call is GetActor at InitAddress, whose own resolution terminates at the
canonical-ID base case (InitAddress is ID-form), so depth 2 is exact and
the bound-exhausted branch is unreachable from the public entry points. -/
def lookupIDF : Nat → StateTree → Address → Except Err Address × StateTree
  | 0, st, _ => (.error (.other "resolver recursion bound"), st)
  | n + 1, st, addr =>
    match assocLookup st.idCache addr with
    | some i => (.ok i, st)
    | none =>
      if addr.isID then (.ok addr, st)
      else
        match getActorWith (lookupIDF n) st InitAddress with
        | (.error e, st1) => (.error (.wrap "getting init actor" e), st1)
        | (.ok p, st1) =>
          let act := heapGetD st1.heap p
          match storeGetIas st1.store act.head with
          | .error e => (.error (.wrap "loading init actor state" e), st1)
          | .ok ias =>
            match ias.lookup addr with
            | .error e => (.error (.wrap "resolving id addr" e), st1)
            | .ok i => (.ok i, { st1 with idCache := assocInsert st1.idCache addr i })

/-- StateTree.LookupID. -/
def StateTree.LookupID (st : StateTree) (addr : Address) :
    Except Err Address × StateTree :=
  lookupIDF 2 st addr

/-- StateTree.GetActor. -/
def StateTree.GetActor (st : StateTree) (addr : Address) :
    Except Err Ptr × StateTree :=
  getActorWith StateTree.LookupID st addr

/-- The record a caller reads through the pointer returned by GetActor. -/
def GetActorVal (st : StateTree) (addr : Address) : Except Err Actor :=
  match st.GetActor addr with
  | (.ok p, st1) => .ok (heapGetD st1.heap p)
  | (.error e, _) => .error e

/-- StateTree.SetActor, lines 65 to 82: resolve, pointer-identity fast
path against the cached entry, cache write, then the direct trie write.
The cache write precedes the trie write and survives its failure. -/
def StateTree.SetActor (st : StateTree) (addr : Address) (act : Ptr) :
    Except Err Unit × StateTree :=
  match st.LookupID addr with
  | (.error e, st1) => (.error (.wrap "ID lookup failed" e), st1)
  | (.ok iaddr, st1) =>
    match assocLookup st1.actorcache iaddr with
    | some cact =>
      if act = cact then (.ok (), st1)
      else
        let st2 := { st1 with actorcache := assocInsert st1.actorcache iaddr act }
        match rootSet st2.store st2.root iaddr (heapGetD st2.heap act) with
        | .error e => (.error e, st2)
        | .ok nd => (.ok (), { st2 with root := nd })
    | none =>
      let st2 := { st1 with actorcache := assocInsert st1.actorcache iaddr act }
      match rootSet st2.store st2.root iaddr (heapGetD st2.heap act) with
      | .error e => (.error e, st2)
      | .ok nd => (.ok (), { st2 with root := nd })

/-- The flush loop over the actor cache: each cached record is written
into the in-memory node; the first failure aborts, keeping the node
mutations already performed. -/
def flushLoop (s : Store) (h : Heap) : Node → List (Address × Ptr) → Node × Option Err
  | nd, [] => (nd, none)
  | nd, (a, p) :: rest =>
    match rootSet s nd a (heapGetD h p) with
    | .error e => (nd, some e)
    | .ok nd1 => flushLoop s h nd1 rest

/-- StateTree.Flush, lines 145 to 161: drain the cache into the node,
clear the cache, finalize the node, put it, return the new root cid. The
cache is cleared after the write loop but before the persist steps. -/
def StateTree.Flush (st : StateTree) : Except Err Cid × StateTree :=
  match flushLoop st.store st.heap st.root st.actorcache with
  | (nd, some e) => (.error e, { st with root := nd })
  | (nd, none) =>
    let st1 := { st with root := nd, actorcache := [] }
    if st1.store.flushFails then (.error (.other "hamt flush failed"), st1)
    else
      match storePutNode st1.store nd with
      | .error e => (.error e, st1)
      | .ok (c, s1) => (.ok c, { st1 with store := s1 })

/-- StateTree.Snapshot, lines 163 to 174: flush, then record the root. -/
def StateTree.Snapshot (st : StateTree) : Except Err Unit × StateTree :=
  match st.Flush with
  | (.error e, st1) => (.error e, st1)
  | (.ok c, st1) => (.ok (), { st1 with snapshot := c })

/-- StateTree.Revert, lines 209 to 221: reload the snapshot root; on
success purge the id cache and install the reloaded root. The actor cache
is left as is (the source to-do). On load failure nothing changes. -/
def StateTree.Revert (st : StateTree) : Except Err Unit × StateTree :=
  match loadNode st.store st.snapshot with
  | .error e => (.error e, st)
  | .ok nd => (.ok (), { st with idCache := [], root := nd })

/-- StateTree.MutateActor, lines 223 to 234. The Go mutation function
receives the cached record by pointer and may also use the captured store
handle, so it is modelled as Store -> Actor -> Store x Actor x Option Err;
its in-place write lands in the heap cell the cache points at, before the
error check, and on success SetActor is called with the same pointer. -/
def StateTree.MutateActor (st : StateTree) (addr : Address)
    (f : Store → Actor → Store × Actor × Option Err) : Except Err Unit × StateTree :=
  match st.GetActor addr with
  | (.error e, st1) => (.error e, st1)
  | (.ok p, st1) =>
    match f st1.store (heapGetD st1.heap p) with
    | (s2, a2, ferr) =>
      let st2 := { st1 with store := s2, heap := assocInsert st1.heap p a2 }
      match ferr with
      | some e => (.error e, st2)
      | none => st2.SetActor addr p

/-- The closure RegisterNewAddress passes to MutateActor, lines 178 to
197: load the init state, allocate the new ID, put the updated table,
point the init actor head at it. The fourth component is the captured
out variable, left undefined until allocation succeeds. -/
def regClosure (s : Store) (addr : Address) (initact : Actor) :
    Store × Actor × Option Err × Address :=
  match storeGetIas s initact.head with
  | .error e => (s, initact, some e, .undef)
  | .ok ias =>
    match ias.addActor addr with
    | .error e => (s, initact, some e, .undef)
    | .ok (oaddr, ias1) =>
      match storePutIas s ias1 with
      | .error e => (s, initact, some e, .undef)
      | .ok (ncid, s1) => (s1, { initact with head := ncid }, none, oaddr)

/-- StateTree.RegisterNewAddress, lines 176 to 207: MutateActor on the
init actor with regClosure, then SetActor of the supplied record under
the minted address. The MutateActor call is inlined so the minted address
carried by the closure is in scope for the final SetActor. -/
def StateTree.RegisterNewAddress (st : StateTree) (addr : Address) (p : Ptr) :
    Except Err Address × StateTree :=
  match st.GetActor InitAddress with
  | (.error e, st1) => (.error e, st1)
  | (.ok ip, st1) =>
    match regClosure st1.store addr (heapGetD st1.heap ip) with
    | (s2, ia2, ferr, out) =>
      let st2 := { st1 with store := s2, heap := assocInsert st1.heap ip ia2 }
      match ferr with
      | some e => (.error e, st2)
      | none =>
        match st2.SetActor InitAddress ip with
        | (.error e, st3) => (.error e, st3)
        | (.ok _, st3) =>
          match st3.SetActor out p with
          | (.error e, st4) => (.error e, st4)
          | (.ok _, st4) => (.ok out, st4)

/-
Concrete states used by the counterexamples and witnesses below.
-/

/-- A store with no induced I/O failures and no blocks. -/
def storeOK : Store :=
  { blocks := [], iasBlocks := [], setFails := fun _ => false,
    findFails := fun _ => false, getFails := fun _ => false,
    flushFails := false, putFails := false }

def rec1 : Actor := ⟨.mk 1, .mk 2, 1, 10⟩

def rec2 : Actor := ⟨.mk 1, .mk 2, 2, 10⟩

/-- An init actor record whose head points at the table block below. -/
def initActor : Actor := ⟨.mk 9, .mk 3, 0, 0⟩

/-- A tree holding one flushed actor record at canonical address 1, and a
heap cell 0 holding a replacement record. -/
def stC1 : StateTree :=
  { root := [(.id 1, rec1)], store := storeOK, heap := [(0, rec2)], nextPtr := 1,
    actorcache := [], snapshot := .undef, idCache := [] }

def stC1a : StateTree := (stC1.Snapshot).2

def stC1b : StateTree := (stC1a.SetActor (.id 1) 0).2

def stC1c : StateTree := (stC1b.Revert).2

/-- The empty tree over the failure-free store. -/
def stE : StateTree := NewStateTree storeOK

/-- A tree whose id cache holds an entry keyed by an ID-form address. -/
def stP4 : StateTree :=
  { root := [], store := storeOK, heap := [], nextPtr := 0, actorcache := [],
    snapshot := .undef, idCache := [(.id 5, .id 7)] }

/-- A tree whose id cache resolves the undefined sentinel address, as the
registration path can produce for it. -/
def stP7 : StateTree :=
  { root := [], store := storeOK, heap := [(0, rec1)], nextPtr := 1, actorcache := [],
    snapshot := .undef, idCache := [(.undef, .id 5)] }

/-- A tree with one cached actor over a store whose trie finalize step
fails. -/
def stC3 : StateTree :=
  { root := [], store := { storeOK with flushFails := true }, heap := [(0, rec1)],
    nextPtr := 1, actorcache := [(.id 1, 0)], snapshot := .undef, idCache := [] }

/-- A tree with one cached actor over a store whose per-key trie write
fails. -/
def stC3b : StateTree :=
  { root := [], store := { storeOK with setFails := fun _ => true }, heap := [(0, rec1)],
    nextPtr := 1, actorcache := [(.id 1, 0)], snapshot := .undef, idCache := [] }

/-- A store whose trie lookups fail with a non-not-found I/O error. -/
def stF4 : StateTree :=
  { root := [], store := { storeOK with findFails := fun _ => true }, heap := [],
    nextPtr := 0, actorcache := [], snapshot := .undef, idCache := [] }

/-- A tree whose init actor is cached and whose store holds an empty
resolution table at the head cid of the init actor. -/
def stInit : StateTree :=
  { root := [], store := { storeOK with iasBlocks := [(.mk 3, ⟨[], 7⟩)] },
    heap := [(0, initActor)], nextPtr := 1, actorcache := [(InitAddress, 0)],
    snapshot := .undef, idCache := [] }

/-- A tree ready for registration: cached init actor, a table allocating
ID 5 next, and a store whose trie write fails exactly at address 5. -/
def stReg : StateTree :=
  { root := [],
    store := { storeOK with
                 iasBlocks := [(.mk 3, ⟨[], 5⟩)],
                 setFails := fun a => decide (a = Address.id 5) },
    heap := [(0, initActor), (1, rec1)], nextPtr := 2,
    actorcache := [(InitAddress, 0)], snapshot := .undef, idCache := [] }

/-- A tree with one flushed actor, used for the mutate-actor scenario. -/
def stM : StateTree :=
  { root := [(.id 1, rec1)], store := storeOK, heap := [], nextPtr := 0,
    actorcache := [], snapshot := .undef, idCache := [] }

/-- A mutation function that increments the nonce in place and then
reports a failure. -/
def fBad : Store → Actor → Store × Actor × Option Err :=
  fun s a => (s, { a with nonce := a.nonce + 1 }, some (.other "user error"))

/-- Evidence that resolving address a at an id cache yields i without
touching the trie: either a cache hit, or the canonical-form fast path.
Successful resolution always leaves the cache in such a state. -/
def resEvidence (idc : List (Address × Address)) (a i : Address) : Prop :=
  assocLookup idc a = some i ∨
    (assocLookup idc a = none ∧ a.isID = true ∧ i = a)

end LotusState

namespace LotusState

theorem assocLookup_insert_self {α β : Type} [DecidableEq α] (l : List (α × β)) (k : α) (v : β) :
    assocLookup (assocInsert l k v) k = some v := by
  induction l with
  | nil => simp [assocInsert, assocLookup]
  | cons kv t ih =>
    by_cases h : kv.1 = k
    · simp [assocInsert, assocLookup, h]
    · simp [assocInsert, assocLookup, h, ih]

theorem assocLookup_insert_ne {α β : Type} [DecidableEq α] (l : List (α × β)) (k a : α) (v : β)
    (h : k ≠ a) : assocLookup (assocInsert l k v) a = assocLookup l a := by
  induction l with
  | nil => simp [assocInsert, assocLookup, h]
  | cons kv t ih =>
    by_cases hk : kv.1 = k
    · simp [assocInsert, assocLookup, hk, h]
    · by_cases ha : kv.1 = a
      · simp [assocInsert, assocLookup, hk, ha, Ne.symm h]
      · simp [assocInsert, assocLookup, hk, ha, ih, Ne.symm h]

theorem heapGetD_insert_self (h : Heap) (p : Ptr) (a : Actor) :
    heapGetD (assocInsert h p a) p = a := by
  simp [heapGetD, assocLookup_insert_self]

theorem lookupID_cacheHit (st : StateTree) (a i : Address)
    (h : assocLookup st.idCache a = some i) : st.LookupID a = (.ok i, st) := by
  unfold StateTree.LookupID lookupIDF
  rw [h]

theorem lookupID_idBase (st : StateTree) (a : Address)
    (hc : assocLookup st.idCache a = none) (hid : a.isID = true) :
    st.LookupID a = (.ok a, st) := by
  unfold StateTree.LookupID lookupIDF
  rw [hc]
  simp [hid]

theorem lookupID_of_evidence (st : StateTree) (a i : Address)
    (h : resEvidence st.idCache a i) : st.LookupID a = (.ok i, st) := by
  rcases h with h | ⟨hc, hid, hia⟩
  · exact lookupID_cacheHit st a i h
  · rw [hia]
    exact lookupID_idBase st a hc hid

theorem lookupID_ok_evidence (st st1 : StateTree) (a i : Address)
    (h : st.LookupID a = (.ok i, st1)) : resEvidence st1.idCache a i := by
  unfold StateTree.LookupID lookupIDF at h
  cases hc : assocLookup st.idCache a with
  | some j =>
    rw [hc] at h
    simp at h
    obtain ⟨h1, h2⟩ := h
    subst h1; subst h2
    exact .inl hc
  | none =>
    rw [hc] at h
    by_cases hid : a.isID
    · simp [hid] at h
      obtain ⟨h1, h2⟩ := h
      subst h1; subst h2
      exact .inr ⟨hc, hid, rfl⟩
    · simp [hid] at h
      rcases hg : getActorWith (lookupIDF 1) st InitAddress with ⟨r, stG⟩
      rw [hg] at h
      cases r with
      | error e => simp at h
      | ok p =>
        dsimp only at h
        cases he : storeGetIas stG.store (heapGetD stG.heap p).head with
        | error e => rw [he] at h; simp at h
        | ok ias =>
          rw [he] at h
          dsimp only at h
          cases hl : ias.lookup a with
          | error e => rw [hl] at h; simp at h
          | ok i2 =>
            rw [hl] at h
            simp at h
            obtain ⟨h1, h2⟩ := h
            subst h1
            rw [← h2]
            exact .inl (assocLookup_insert_self _ _ _)

end LotusState

namespace LotusState

theorem getActorCore_ok (st st1 : StateTree) (ia : Address) (p : Ptr)
    (h : getActorCore st ia = (.ok p, st1)) :
    assocLookup st1.actorcache ia = some p ∧ st1.idCache = st.idCache := by
  unfold getActorCore at h
  cases hc : assocLookup st.actorcache ia with
  | some q =>
    rw [hc] at h
    simp at h
    obtain ⟨h1, h2⟩ := h
    subst h1
    subst h2
    exact ⟨hc, rfl⟩
  | none =>
    rw [hc] at h
    cases hf : rootFind st.store st.root ia with
    | error e =>
      rw [hf] at h
      by_cases he : e = Err.hamtNotFound <;> simp [he] at h
    | ok act =>
      rw [hf] at h
      simp at h
      obtain ⟨h1, h2⟩ := h
      subst h1
      rw [← h2]
      exact ⟨assocLookup_insert_self _ _ _, rfl⟩

theorem getActor_ok (st st1 : StateTree) (a : Address) (p : Ptr)
    (h : st.GetActor a = (.ok p, st1)) :
    ∃ i, resEvidence st1.idCache a i ∧ assocLookup st1.actorcache i = some p := by
  unfold StateTree.GetActor getActorWith at h
  by_cases ha : a = .undef
  · simp [ha] at h
  · rw [if_neg ha] at h
    rcases hL : st.LookupID a with ⟨r, stL⟩
    rw [hL] at h
    cases r with
    | error e =>
      dsimp only at h
      split at h <;> simp at h
    | ok ia =>
      dsimp only at h
      have hev := lookupID_ok_evidence st stL a ia hL
      obtain ⟨hcache, hidc⟩ := getActorCore_ok stL st1 ia p h
      exact ⟨ia, by rw [hidc]; exact hev, hcache⟩

theorem setActor_ok (st st1 : StateTree) (a : Address) (p : Ptr)
    (h : st.SetActor a p = (.ok (), st1)) :
    ∃ ia, resEvidence st1.idCache a ia ∧ assocLookup st1.actorcache ia = some p := by
  unfold StateTree.SetActor at h
  rcases hL : st.LookupID a with ⟨r, stL⟩
  rw [hL] at h
  cases r with
  | error e => simp at h
  | ok ia =>
    dsimp only at h
    have hev := lookupID_ok_evidence st stL a ia hL
    refine ⟨ia, ?_⟩
    cases hc : assocLookup stL.actorcache ia with
    | some q =>
      rw [hc] at h
      dsimp only at h
      by_cases hpq : p = q
      · rw [if_pos hpq] at h
        simp at h
        rw [← h]
        exact ⟨hev, by rw [hc, hpq]⟩
      · rw [if_neg hpq] at h
        cases hrs : rootSet stL.store stL.root ia (heapGetD stL.heap p) with
        | error e => rw [hrs] at h; simp at h
        | ok nd =>
          rw [hrs] at h
          simp at h
          rw [← h]
          exact ⟨hev, assocLookup_insert_self _ _ _⟩
    | none =>
      rw [hc] at h
      dsimp only at h
      cases hrs : rootSet stL.store stL.root ia (heapGetD stL.heap p) with
      | error e => rw [hrs] at h; simp at h
      | ok nd =>
        rw [hrs] at h
        simp at h
        rw [← h]
        exact ⟨hev, assocLookup_insert_self _ _ _⟩

end LotusState

namespace LotusState

/-- C9: if loading the snapshot root fails (in particular when revert is
called before any snapshot, with the snapshot still the undefined cid),
Revert returns the load error and leaves the whole tree unchanged. -/
theorem c9_revert_error_leaves_state_unchanged (st : StateTree) (e : Err)
    (h : loadNode st.store st.snapshot = .error e) :
    st.Revert = (.error e, st) := by
  unfold StateTree.Revert
  rw [h]

theorem c9_witness : stC1.Revert = (.error (.other "cannot load undefined cid"), stC1) :=
  c9_revert_error_leaves_state_unchanged stC1 (.other "cannot load undefined cid") rfl

/-- C8: a successful Flush followed by another Flush with no intervening
mutation succeeds and returns the same root cid. -/
theorem c8_flush_idempotent (st st1 : StateTree) (c : Cid)
    (h : st.Flush = (.ok c, st1)) : (st1.Flush).1 = .ok c := by
  unfold StateTree.Flush at h ⊢
  rcases hfl : flushLoop st.store st.heap st.root st.actorcache with ⟨nd, oe⟩
  rw [hfl] at h
  cases oe with
  | some e => simp at h
  | none =>
    dsimp only at h
    by_cases hff : st.store.flushFails
    · simp [hff] at h
    · simp only [hff] at h
      by_cases hpf : st.store.putFails
      · simp [storePutNode, hpf] at h
      · simp [storePutNode, hpf] at h
        obtain ⟨h1, h2⟩ := h
        subst h1
        rw [← h2]
        simp [flushLoop, storePutNode, hff, hpf]

theorem c8_witness :
    stE.Flush = (.ok (hashNode []), (stE.Flush).2) ∧
    (((stE.Flush).2).Flush).1 = .ok (hashNode []) :=
  ⟨rfl, c8_flush_idempotent stE (stE.Flush).2 (hashNode []) rfl⟩

/-- C4 counterexample: LookupID consults the ID cache before the
canonical-form check, so at a state whose cache carries an entry keyed by
an ID-form address the cached value is returned, not the address itself;
the claim that an ID-form address is returned unchanged with no cache
access is false of the code as a function of state. -/
theorem c4_counterexample :
    (stP4.LookupID (.id 5)).1 = .ok (.id 7) ∧ (stP4.LookupID (.id 5)).1 ≠ .ok (.id 5) :=
  ⟨by decide, by decide⟩

/-- C4 amended: for an ID-form address with no ID-cache entry, LookupID
returns the address unchanged and the tree (trie, caches, store) is
untouched; the ID cache is still consulted first. -/
theorem c4_lookup_id_fastpath (st : StateTree) (a : Address)
    (hid : a.isID = true) (hc : assocLookup st.idCache a = none) :
    st.LookupID a = (.ok a, st) :=
  lookupID_idBase st a hc hid

theorem c4_witness : stE.LookupID (.id 7) = (.ok (.id 7), stE) :=
  c4_lookup_id_fastpath stE (.id 7) rfl rfl

/-- C2 counterexample: a successful SetActor mutates the in-memory trie
node immediately, refuting the claim that the write lands only in the
actor cache and leaves the trie untouched. -/
theorem c2_counterexample :
    (stC1.SetActor (.id 1) 0).1 = .ok () ∧ (stC1.SetActor (.id 1) 0).2.root ≠ stC1.root :=
  ⟨by decide, by decide⟩

/-- C2 amended: outside the identical-pointer fast path, a successful
SetActor overwrites the cache entry and also writes the record into the
in-memory trie node; the store (hence the persisted root) is untouched,
so the new value is not reflected in any flushed root until Flush. -/
theorem c2_set_actor_updates_cache_and_memory_node (st st1 : StateTree)
    (a ia : Address) (p : Ptr)
    (hL : st.LookupID a = (.ok ia, st1))
    (hfast : assocLookup st1.actorcache ia ≠ some p)
    (hset : st1.store.setFails ia = false) :
    st.SetActor a p =
      (.ok (), { st1 with
                   actorcache := assocInsert st1.actorcache ia p,
                   root := assocInsert st1.root ia (heapGetD st1.heap p) }) := by
  unfold StateTree.SetActor
  rw [hL]
  dsimp only
  cases hc : assocLookup st1.actorcache ia with
  | some q =>
    have hpq : p ≠ q := fun hh => hfast (by rw [hc, hh])
    dsimp only
    rw [if_neg hpq]
    simp [rootSet, hset]
  | none =>
    simp [rootSet, hset]

theorem c2_witness :
    stC1.SetActor (.id 1) 0 =
      (.ok (), { stC1 with actorcache := [(.id 1, 0)], root := [(.id 1, rec2)] }) := by
  have h := c2_set_actor_updates_cache_and_memory_node stC1 stC1 (.id 1) (.id 1) 0 rfl
    (by decide) rfl
  exact h

end LotusState

namespace LotusState

/-- C1: code bug. After Snapshot at root R1 and a post-snapshot SetActor,
Revert restores the R1 trie root but leaves the actor cache in place (the
source to-do), so GetActor serves the post-snapshot record rec2 instead
of the R1-era record rec1. -/
theorem c1_revert_keeps_actor_cache :
    (stC1.Snapshot).1 = .ok () ∧
    (stC1a.SetActor (.id 1) 0).1 = .ok () ∧
    (stC1b.Revert).1 = .ok () ∧
    stC1c.root = [(.id 1, rec1)] ∧
    stC1c.actorcache = [(.id 1, 0)] ∧
    GetActorVal stC1c (.id 1) = .ok rec2 ∧
    rec2 ≠ rec1 :=
  ⟨by decide, by decide, by decide, by decide, by decide, by decide, by decide⟩

/-- C3 counterexample: with a nonempty actor cache and a failing trie
finalize step, Flush fails yet the actor cache has already been cleared,
so the tree is not left in its pre-flush state. -/
theorem c3_counterexample :
    (stC3.Flush).1 = .error (.other "hamt flush failed") ∧
    (stC3.Flush).2.actorcache = [] ∧
    stC3.actorcache ≠ [] :=
  ⟨by decide, by decide, by decide⟩

/-- C3 amended: a failure inside the per-actor write loop aborts with the
cache intact (though writes already performed stay in the in-memory
node); a failure of the trie finalize or the root put happens after the
cache has been cleared, and the cache is not restored; a fully successful
Flush clears the cache and returns the content-derived root cid. -/
theorem c3_flush_error_protocol (st : StateTree) :
    (∀ nd e, flushLoop st.store st.heap st.root st.actorcache = (nd, some e) →
        st.Flush = (.error e, { st with root := nd })) ∧
    (∀ nd, flushLoop st.store st.heap st.root st.actorcache = (nd, none) →
        st.store.flushFails = true →
        st.Flush = (.error (.other "hamt flush failed"),
          { st with root := nd, actorcache := [] })) ∧
    (∀ nd, flushLoop st.store st.heap st.root st.actorcache = (nd, none) →
        st.store.flushFails = false → st.store.putFails = true →
        st.Flush = (.error (.other "store put failed"),
          { st with root := nd, actorcache := [] })) ∧
    (∀ nd, flushLoop st.store st.heap st.root st.actorcache = (nd, none) →
        st.store.flushFails = false → st.store.putFails = false →
        st.Flush = (.ok (hashNode nd),
          { st with root := nd, actorcache := [],
                    store := { st.store with
                                 blocks := assocInsert st.store.blocks (hashNode nd) nd } })) := by
  refine ⟨?_, ?_, ?_, ?_⟩
  · intro nd e hfl
    unfold StateTree.Flush
    rw [hfl]
  · intro nd hfl hff
    unfold StateTree.Flush
    rw [hfl]
    dsimp only
    simp [hff]
  · intro nd hfl hff hpf
    unfold StateTree.Flush
    rw [hfl]
    dsimp only
    simp [hff, storePutNode, hpf]
  · intro nd hfl hff hpf
    unfold StateTree.Flush
    rw [hfl]
    dsimp only
    simp [hff, storePutNode, hpf]

theorem c3_witness :
    stC3.Flush = (.error (.other "hamt flush failed"),
      { stC3 with root := [(.id 1, rec1)], actorcache := [] }) ∧
    stC3b.Flush = (.error (.other "hamt set failed"), { stC3b with root := [] }) :=
  ⟨(c3_flush_error_protocol stC3).2.1 [(.id 1, rec1)] rfl rfl,
   (c3_flush_error_protocol stC3b).1 [] (.other "hamt set failed") rfl⟩

/-- C7 counterexample: the undefined sentinel address can resolve (here
through the ID cache, which the registration path can populate for it),
SetActor then succeeds, but the immediate GetActor rejects the sentinel
instead of returning the record just set. -/
theorem c7_counterexample :
    (stP7.LookupID .undef).1 = .ok (.id 5) ∧
    (stP7.SetActor .undef 0).1 = .ok () ∧
    heapGetD (stP7.SetActor .undef 0).2.heap 0 = rec1 ∧
    GetActorVal (stP7.SetActor .undef 0).2 .undef =
      .error (.other "GetActor called on undefined address") :=
  ⟨by decide, by decide, by decide, by decide⟩

/-- C7 amended: for every address other than the undefined sentinel, a
successful SetActor makes the record immediately visible to GetActor,
before any Flush. -/
theorem c7_set_then_get (st st1 : StateTree) (a : Address) (p : Ptr) (r : Actor)
    (ha : a ≠ .undef)
    (hs : st.SetActor a p = (.ok (), st1))
    (hr : heapGetD st1.heap p = r) :
    GetActorVal st1 a = .ok r := by
  obtain ⟨ia, hev, hcache⟩ := setActor_ok st st1 a p hs
  unfold GetActorVal StateTree.GetActor getActorWith
  rw [if_neg ha, lookupID_of_evidence st1 a ia hev]
  dsimp only
  unfold getActorCore
  rw [hcache]
  dsimp only
  rw [hr]

theorem c7_witness :
    GetActorVal (stC1.SetActor (.id 1) 0).2 (.id 1) = .ok rec2 :=
  c7_set_then_get stC1 (stC1.SetActor (.id 1) 0).2 (.id 1) 0 rec2 (by decide) rfl rfl

/-- C5: the only error GetActor translates into the actor-not-found kind
is a not-found, either surfacing through resolution or from the trie
lookup; every other resolution or trie error is propagated wrapped but
structurally intact, so callers can tell a missing actor from a storage
fault. -/
theorem c5_get_actor_error_translation (st : StateTree) (a : Address) (ha : a ≠ .undef) :
    (∀ e0 st1, st.LookupID a = (.error e0, st1) → errIs e0 .hamtNotFound = true →
        st.GetActor a = (.error (.wrap "resolution lookup failed" .actorNotFound), st1)) ∧
    (∀ e0 st1, st.LookupID a = (.error e0, st1) → errIs e0 .hamtNotFound = false →
        st.GetActor a = (.error (.wrap "address resolution" e0), st1)) ∧
    (∀ i st1, st.LookupID a = (.ok i, st1) → assocLookup st1.actorcache i = none →
        rootFind st1.store st1.root i = .error .hamtNotFound →
        st.GetActor a = (.error .actorNotFound, st1)) ∧
    (∀ i st1 e0, st.LookupID a = (.ok i, st1) → assocLookup st1.actorcache i = none →
        rootFind st1.store st1.root i = .error e0 → e0 ≠ .hamtNotFound →
        st.GetActor a = (.error (.wrap "hamt find failed" e0), st1)) := by
  refine ⟨?_, ?_, ?_, ?_⟩
  · intro e0 st1 hL hIs
    unfold StateTree.GetActor getActorWith
    rw [if_neg ha, hL]
    dsimp only
    simp [hIs]
  · intro e0 st1 hL hIs
    unfold StateTree.GetActor getActorWith
    rw [if_neg ha, hL]
    dsimp only
    simp [hIs]
  · intro i st1 hL hc hf
    unfold StateTree.GetActor getActorWith getActorCore
    rw [if_neg ha, hL]
    dsimp only
    rw [hc]
    dsimp only
    rw [hf]
    simp
  · intro i st1 e0 hL hc hf he
    unfold StateTree.GetActor getActorWith getActorCore
    rw [if_neg ha, hL]
    dsimp only
    rw [hc]
    dsimp only
    rw [hf]
    dsimp only
    rw [if_neg he]

theorem c5_witness :
    stInit.GetActor (.key 3) =
      (.error (.wrap "resolution lookup failed" .actorNotFound), stInit) ∧
    stE.GetActor (.key 3) =
      (.error (.wrap "address resolution" (.wrap "getting init actor" .actorNotFound)), stE) ∧
    stE.GetActor (.id 7) = (.error .actorNotFound, stE) ∧
    stF4.GetActor (.id 7) =
      (.error (.wrap "hamt find failed" (.other "hamt find io error")), stF4) :=
  ⟨(c5_get_actor_error_translation stInit (.key 3) (by decide)).1
      (.wrap "resolving id addr" .hamtNotFound) stInit rfl rfl,
   (c5_get_actor_error_translation stE (.key 3) (by decide)).2.1
      (.wrap "getting init actor" .actorNotFound) stE rfl rfl,
   (c5_get_actor_error_translation stE (.id 7) (by decide)).2.2.1 (.id 7) stE rfl rfl rfl,
   (c5_get_actor_error_translation stF4 (.id 7) (by decide)).2.2.2 (.id 7) stF4
      (.other "hamt find io error") rfl rfl rfl (by decide)⟩

end LotusState

namespace LotusState

/-- C10: when the mutation function updates the record (in place, through
the cached pointer) and then returns an error, MutateActor propagates the
error, no SetActor runs, and the mutation stays visible: a subsequent
GetActor returns the record as the function left it. -/
theorem c10_mutate_error_mutation_visible (st st1 : StateTree) (a : Address) (p : Ptr)
    (f : Store → Actor → Store × Actor × Option Err) (s2 : Store) (a2 : Actor) (e : Err)
    (ha : a ≠ .undef)
    (hg : st.GetActor a = (.ok p, st1))
    (hf : f st1.store (heapGetD st1.heap p) = (s2, a2, some e)) :
    st.MutateActor a f =
      (.error e, { st1 with store := s2, heap := assocInsert st1.heap p a2 }) ∧
    GetActorVal { st1 with store := s2, heap := assocInsert st1.heap p a2 } a = .ok a2 := by
  obtain ⟨i, hev, hcache⟩ := getActor_ok st st1 a p hg
  constructor
  · unfold StateTree.MutateActor
    rw [hg]
    dsimp only
    rw [hf]
  · unfold GetActorVal StateTree.GetActor getActorWith
    have hev2 : resEvidence
        ({ st1 with store := s2, heap := assocInsert st1.heap p a2 } : StateTree).idCache a i :=
      hev
    rw [if_neg ha, lookupID_of_evidence _ a i hev2]
    dsimp only
    unfold getActorCore
    dsimp only
    rw [hcache]
    dsimp only
    rw [heapGetD_insert_self]

theorem c10_witness :
    (stM.MutateActor (.id 1) fBad).1 = .error (.other "user error") ∧
    GetActorVal (stM.MutateActor (.id 1) fBad).2 (.id 1) = .ok rec2 := by
  have h := c10_mutate_error_mutation_visible stM (stM.GetActor (.id 1)).2 (.id 1) 0 fBad
      (stM.GetActor (.id 1)).2.store rec2 (.other "user error")
      (by decide) rfl rfl
  exact ⟨by rw [h.1], by rw [h.1]; exact h.2⟩

/-- C6: in RegisterNewAddress, when the init-actor mutation has succeeded
and the final SetActor of the supplied record under the freshly minted
canonical address fails at the trie write, the error is returned without
rolling back the allocation: the actor cache still maps the init address
to the pointer whose record carries the updated head. -/
theorem c6_register_keeps_init_allocation (st st1 : StateTree) (addr out : Address)
    (ip p : Ptr) (s2 : Store) (ia2 : Actor)
    (hg : st.GetActor InitAddress = (.ok ip, st1))
    (hcl : regClosure st1.store addr (heapGetD st1.heap ip) = (s2, ia2, none, out))
    (hinit : assocLookup st1.idCache InitAddress = none)
    (houtID : out.isID = true)
    (houtC : assocLookup st1.idCache out = none)
    (hne : out ≠ InitAddress)
    (hfastne : assocLookup st1.actorcache out ≠ some p)
    (hsf : s2.setFails out = true) :
    st.RegisterNewAddress addr p =
      (.error (.other "hamt set failed"),
        { st1 with store := s2, heap := assocInsert st1.heap ip ia2,
                   actorcache := assocInsert st1.actorcache out p }) ∧
    assocLookup (assocInsert st1.actorcache out p) InitAddress = some ip ∧
    heapGetD (assocInsert st1.heap ip ia2) ip = ia2 := by
  obtain ⟨i, hev, hcache⟩ := getActor_ok st st1 InitAddress ip hg
  have hiInit : i = InitAddress := by
    rcases hev with h | ⟨h1, h2, h3⟩
    · rw [hinit] at h
      cases h
    · exact h3
  subst hiInit
  refine ⟨?_, ?_, heapGetD_insert_self _ _ _⟩
  · unfold StateTree.RegisterNewAddress
    rw [hg]
    dsimp only
    rw [hcl]
    dsimp only
    have hset1 : StateTree.SetActor
        { st1 with store := s2, heap := assocInsert st1.heap ip ia2 } InitAddress ip =
        (.ok (), { st1 with store := s2, heap := assocInsert st1.heap ip ia2 }) := by
      unfold StateTree.SetActor
      rw [lookupID_idBase
        { st1 with store := s2, heap := assocInsert st1.heap ip ia2 } InitAddress hinit rfl]
      dsimp only
      rw [hcache]
      dsimp only
      rw [if_pos rfl]
    rw [hset1]
    dsimp only
    unfold StateTree.SetActor
    rw [lookupID_idBase
      { st1 with store := s2, heap := assocInsert st1.heap ip ia2 } out houtC houtID]
    dsimp only
    cases hoc : assocLookup st1.actorcache out with
    | some q =>
      have hpq : p ≠ q := fun hh => hfastne (by rw [hoc, hh])
      dsimp only
      rw [if_neg hpq]
      simp [rootSet, hsf]
    | none =>
      simp [rootSet, hsf]
  · rw [assocLookup_insert_ne _ _ _ _ hne]
    exact hcache

theorem c6_witness :
    (stReg.RegisterNewAddress (.key 9) 1).1 = .error (.other "hamt set failed") ∧
    assocLookup (stReg.RegisterNewAddress (.key 9) 1).2.actorcache InitAddress = some 0 ∧
    (heapGetD (stReg.RegisterNewAddress (.key 9) 1).2.heap 0).head =
      hashIas ⟨[(.key 9, 5)], 6⟩ := by
  have h := c6_register_keeps_init_allocation stReg stReg (.key 9) (.id 5) 0 1
      ((regClosure stReg.store (.key 9) (heapGetD stReg.heap 0)).1)
      ((regClosure stReg.store (.key 9) (heapGetD stReg.heap 0)).2.1)
      rfl rfl rfl rfl rfl (by decide) (by decide) rfl
  refine ⟨by rw [h.1], by rw [h.1]; exact h.2.1, ?_⟩
  rw [h.1]
  rw [h.2.2]
  rfl

end LotusState
